import Mathlib

/-!
Shallow embedding of CubicLauncher/proton's download engine
(`src/utilities/mod.rs` and `src/downloaders/mod.rs`) and proofs about it.

Byte contents are modelled as `List Nat` (each element one `u8` value);
the SHA-1 lower-hex digest computed by `ring`'s `Context` over the streamed
bytes is abstracted as a parameter `h : List Nat → String`, since the claims
under study are about the control flow around the digest, not about SHA-1
itself.  `String` equality in Lean is case-sensitive, matching Rust's
`actual_hash == expected_hash`.
-/

namespace Proton

/-- Error type mirroring `ProtonError` in `src/errors/mod.rs`
(the variants reachable from the modelled code paths; note that in the
source a `reqwest::Error` raised mid-stream converts to `RequestError`
via `#[from]`, the same variant as a failed `send()`). -/
inductive ProtonError where
  | requestError
  | ioError
  | hashMismatch
  | joinError
  | other
  deriving DecidableEq, Repr

/-- What the network environment does on one attempt of `download_file`:
the request fails outright (`send()` returns `Err`), the body stream yields
some chunks and then fails (`stream.try_next()` returns `Err` mid-body), or
the full body arrives as a list of chunks. -/
inductive AttemptOutcome where
  | reqErr
  | bodyErr (chunks : List (List Nat))
  | body (chunks : List (List Nat))
  deriving DecidableEq, Repr

/-- The two filesystem locations `download_file` touches: the contents (if
any) at the temporary path `path.with_extension("tmp")` and at the final
destination `path`. `none` means no file at that location. -/
structure FS where
  temp : Option (List Nat)
  dest : Option (List Nat)
  deriving DecidableEq, Repr

/-- `const MAX_DOWNLOAD_ATTEMPTS: usize = 3;` (src/utilities/mod.rs:24). -/
def MAX_DOWNLOAD_ATTEMPTS : Nat := 3

/-- One-to-one model of the attempt loop of `download_file`
(src/utilities/mod.rs:32-73), by recursion on the remaining loop
iterations `fuel`, with `i` the index of the current attempt into the
environment `outcomes`.  Returns the result, the final filesystem state,
and the number of HTTP requests issued.
Per attempt: a failed `send()` propagates `RequestError` immediately
(`map_err` + `?`); otherwise `File::create(&temp_file)` truncates the temp
file and the received chunks are streamed into it while being hashed, so a
mid-stream error propagates immediately leaving the partial temp file; on
a full body, if the digest equals `expected_hash` the temp file is renamed
onto the destination and `Ok(())` is returned, else the temp file is
removed (`let _ = remove_file`) and the loop continues.  Falling out of
the loop yields `Err(ProtonError::HashMismatch)`.
(`create_dir_all` of the parent and `File::create` are modelled as
succeeding; their `Err` branches only propagate an `IoError`.) -/
def downloadFrom (h : List Nat → String) (expected : String)
    (outcomes : Nat → AttemptOutcome) :
    Nat → Nat → FS → Except ProtonError Unit × FS × Nat
  | _, 0, fs => (.error .hashMismatch, fs, 0)
  | i, fuel + 1, fs =>
    match outcomes i with
    | .reqErr => (.error .requestError, fs, 1)
    | .bodyErr chunks =>
        (.error .requestError, { fs with temp := some chunks.flatten }, 1)
    | .body chunks =>
        let content := chunks.flatten
        if h content = expected then
          (.ok (), { temp := none, dest := some content }, 1)
        else
          let next := downloadFrom h expected outcomes (i + 1) fuel
            { fs with temp := none }
          (next.1, next.2.1, next.2.2 + 1)

/-- Model of `download_file(url, path, expected_hash)`
(src/utilities/mod.rs:26-76): run the attempt loop for
`MAX_DOWNLOAD_ATTEMPTS` iterations starting from filesystem state `fs`. -/
def download_file (h : List Nat → String) (expected : String)
    (outcomes : Nat → AttemptOutcome) (fs : FS) :
    Except ProtonError Unit × FS × Nat :=
  downloadFrom h expected outcomes 0 MAX_DOWNLOAD_ATTEMPTS fs

/-- Decidable test that an attempt outcome is a fully received body whose
digest differs from `expected` (the retried case of `download_file`). -/
def isMismatchBody (h : List Nat → String) (expected : String) :
    AttemptOutcome → Bool
  | .body chunks => h chunks.flatten != expected
  | _ => false

/-!
Archive extractor (`extract_native`, src/utilities/mod.rs:78-110).

Filesystem paths are modelled as lists of components.  `PathBuf::join`
with a relative name appends the name's `/`-separated components (entry
names in a zip are stored with `/` separators); the counterexamples below
only use relative entry names, for which this is exact.
-/

/-- Split a character list on `/`, accumulating the current component in
reverse; mirrors `String::splitOn "/"` on the underlying characters. -/
def splitPathAux : List Char → List Char → List String
  | [], acc => [String.mk acc.reverse]
  | c :: rest, acc =>
    if c = '/' then String.mk acc.reverse :: splitPathAux rest []
    else splitPathAux rest (c :: acc)

/-- Split a zip entry name on `/` into path components, as `Path::join`
does when the joined name is relative. -/
def splitPath (s : String) : List String :=
  splitPathAux s.toList []

/-- Rust `str::starts_with`: `strStartsWith s p` holds when `s` begins
with `p`, computed on the character lists. -/
def strStartsWith (s p : String) : Bool :=
  p.toList.isPrefixOf s.toList

/-- Model of `destino.join(nombre)` (src/utilities/mod.rs:98) for a
relative entry name: append the name's components. -/
def joinPath (destino : List String) (nombre : String) : List String :=
  destino ++ splitPath nombre

/-- Resolve `..` and `.` components of a path the way the OS does when the
written file is actually opened: `..` pops the last kept component, `.`
and empty components are dropped. -/
def resolvePath (p : List String) : List String :=
  p.foldl
    (fun acc comp =>
      if comp = ".." then acc.dropLast
      else if comp = "." ∨ comp = "" then acc
      else acc ++ [comp])
    []

/-- Whether the file at `target` lies inside the directory `dest`, after
resolving `..`/`.` components on both. -/
def insideDir (dest target : List String) : Bool :=
  (resolvePath dest).isPrefixOf (resolvePath target)

/-- One archive entry as `extract_native` sees it: its stored name, its
uncompressed payload, and whether `read_to_end_checked` succeeds on it. -/
structure ZipEntry where
  filename : String
  payload : List Nat
  readOk : Bool
  deriving DecidableEq, Repr

/-- Model of the entry loop of `extract_native(jar_path, destino)`
(src/utilities/mod.rs:85-107).  Returns the list of file writes performed
(path, contents; in entry order, later writes overwrite earlier ones at
the same path) and the error, if any, that aborted the loop.
Faithful to the source order: each entry's payload is read
(`read_to_end_checked`) BEFORE the `META-INF/` skip test, so a failing
read aborts the call even for a metadata entry; a non-skipped entry is
written to `destino.join(nombre)` with parent directories created and any
existing file overwritten; entry names are not sanitised in any way. -/
def extract_native (destino : List String) :
    List ZipEntry → List (List String × List Nat) × Option ProtonError
  | [] => ([], none)
  | e :: rest =>
    if e.readOk = false then ([], some .other)
    else if strStartsWith e.filename "META-INF/" then extract_native destino rest
    else
      let next := extract_native destino rest
      ((joinPath destino e.filename, e.payload) :: next.1, next.2)

/-!
Temporary-path shape (`let temp_file = path.with_extension("tmp");`,
src/utilities/mod.rs:31).  A path is a parent directory (list of
components) plus a file name; `Path::with_extension` rewrites only the
file name.
-/

/-- Split a character list at its LAST dot, returning
(part-before, part-after); `none` when there is no dot. -/
def lastDotSplit : List Char → Option (List Char × List Char)
  | [] => none
  | c :: rest =>
    match lastDotSplit rest with
    | some (s, e) => some (c :: s, e)
    | none => if c = '.' then some ([], rest) else none

/-- Split a file name at its LAST dot, provided that dot is not the
first character, returning (stem, extension-after-the-dot); `none`
otherwise.  This mirrors Rust's `split_file_at_dot` rule under which a
leading-dot name like `.gitignore` has no extension. -/
def splitAtLastDot (name : List Char) : Option (List Char × List Char) :=
  match name with
  | [] => none
  | c0 :: rest =>
    match lastDotSplit rest with
    | some (s, e) => some (c0 :: s, e)
    | none => none

/-- Rust `Path::file_stem` on a file name: the portion before the last
qualifying dot, or the whole name if there is no extension. -/
def rustFileStem (name : String) : String :=
  match splitAtLastDot name.toList with
  | some (stem, _) => String.mk stem
  | none => name

/-- A filesystem path as parent-directory components plus a file name. -/
structure RPath where
  dir : List String
  file : String
  deriving DecidableEq, Repr

/-- Model of Rust `Path::with_extension(ext)` for non-empty `ext`: keep
the parent, replace the file name's extension (everything after its last
qualifying dot) by `ext`, appending `.ext` when there is none. -/
def with_extension (p : RPath) (ext : String) : RPath :=
  ⟨p.dir, rustFileStem p.file ++ "." ++ ext⟩

/-- The temporary path `download_file` writes to:
`path.with_extension("tmp")` (src/utilities/mod.rs:31). -/
def temp_file_path (path : RPath) : RPath :=
  with_extension path "tmp"

/-!
Adaptive concurrency controller (`AdaptiveConfig`,
src/downloaders/mod.rs:17-93).

Durations are modelled by their `as_millis()` value as a `Nat`: realistic
per-download millisecond counts are far below `u128::MAX`, so the `u128`
sum in `adjust_concurrency` never wraps and `Nat` arithmetic is exact;
likewise `current_concurrent` stays at most `512`, so the `usize`
products `* 8` and `* 11` never wrap.  The `Instant`-valued
`last_adjustment` field is replaced by passing
`record_and_adjust` a boolean saying whether
`last_adjustment.elapsed().as_secs() >= adjustment_interval_secs` held at
the call.
-/

/-- The tunable state of `AdaptiveConfig` (src/downloaders/mod.rs:17-26),
minus the `Instant` timestamp (see the section comment). -/
structure AdaptiveConfig where
  max_concurrent : Nat
  current_concurrent : Nat
  min_concurrent : Nat
  performance_samples : List Nat
  sample_size : Nat
  performance_threshold_ms : Nat
  adjustment_interval_secs : Nat
  deriving DecidableEq, Repr

/-- Model of `calculate_optimal_downloads` (src/downloaders/mod.rs:97-110)
parametrised by the host observations: the CPU-core count and
`memory_based = (available_memory_gb * 4.0) as usize` (the float product
truncated to an integer, taken here as the already-truncated `Nat`).
Computes `(cpu_cores * 6).min(memory_based).clamp(8, 256)`. -/
def calculate_optimal_downloads (cpu_cores memory_based : Nat) : Nat :=
  min (max (min (cpu_cores * 6) memory_based) 8) 256

/-- `AdaptiveConfig::new` (src/downloaders/mod.rs:29-41), parametrised by
the host observations fed to `calculate_optimal_downloads`. -/
def AdaptiveConfig.new (cpu_cores memory_based : Nat) : AdaptiveConfig :=
  let mc := calculate_optimal_downloads cpu_cores memory_based
  { max_concurrent := mc
    current_concurrent := max (mc / 2) 4
    min_concurrent := 4
    performance_samples := []
    sample_size := 8
    performance_threshold_ms := 1000
    adjustment_interval_secs := 5 }

/-- `AdaptiveConfig::conservative` (src/downloaders/mod.rs:43-50): start
from `new`, then halve the ceiling, fix current at 4, floor 2,
threshold 2000 ms. -/
def AdaptiveConfig.conservative (cpu_cores memory_based : Nat) :
    AdaptiveConfig :=
  let config := AdaptiveConfig.new cpu_cores memory_based
  { config with
    max_concurrent := config.max_concurrent / 2
    current_concurrent := 4
    min_concurrent := 2
    performance_threshold_ms := 2000 }

/-- `AdaptiveConfig::aggressive` (src/downloaders/mod.rs:52-59): start
from `new`, double the ceiling, set current to half the NEW ceiling
(the field is read after being doubled), floor 8, threshold 500 ms. -/
def AdaptiveConfig.aggressive (cpu_cores memory_based : Nat) :
    AdaptiveConfig :=
  let config := AdaptiveConfig.new cpu_cores memory_based
  { config with
    max_concurrent := config.max_concurrent * 2
    current_concurrent := config.max_concurrent * 2 / 2
    min_concurrent := 8
    performance_threshold_ms := 500 }

/-- `AdaptiveConfig::adjust_concurrency` (src/downloaders/mod.rs:75-93):
on an empty window do nothing; otherwise take the integer mean of the
sampled milliseconds, shrink `current_concurrent` to
`(current * 8 / 10).max(min_concurrent)` when the mean exceeds the
threshold, grow it to `(current * 11 / 10).min(max_concurrent)` when the
mean is below half the threshold, and in either case clear the window. -/
def adjust_concurrency (c : AdaptiveConfig) : AdaptiveConfig :=
  if c.performance_samples.isEmpty then c
  else
    let total_ms := c.performance_samples.sum
    let avg_ms := total_ms / c.performance_samples.length
    let current :=
      if avg_ms > c.performance_threshold_ms then
        max (c.current_concurrent * 8 / 10) c.min_concurrent
      else if avg_ms < c.performance_threshold_ms / 2 then
        min (c.current_concurrent * 11 / 10) c.max_concurrent
      else c.current_concurrent
    { c with current_concurrent := current, performance_samples := [] }

/-- `AdaptiveConfig::record_and_adjust` (src/downloaders/mod.rs:61-73):
push the new sample, evict the oldest (`Vec::remove(0)`) when the window
overflows `sample_size`, then run `adjust_concurrency` when the
adjustment interval has elapsed and at least half the window is full. -/
def record_and_adjust (c : AdaptiveConfig) (duration_ms : Nat)
    (intervalElapsed : Bool) : AdaptiveConfig :=
  let samples := c.performance_samples ++ [duration_ms]
  let samples :=
    if samples.length > c.sample_size then samples.tail else samples
  let c := { c with performance_samples := samples }
  if intervalElapsed ∧ c.performance_samples.length ≥ c.sample_size / 2 then
    adjust_concurrency c
  else c

/-- The bounds invariant claimed for the controller:
`min_concurrent ≤ current_concurrent ≤ max_concurrent`. -/
def AdaptiveInv (c : AdaptiveConfig) : Prop :=
  c.min_concurrent ≤ c.current_concurrent ∧
    c.current_concurrent ≤ c.max_concurrent

instance (c : AdaptiveConfig) : Decidable (AdaptiveInv c) :=
  inferInstanceAs (Decidable (_ ∧ _))

/-!
Natives phase (`download_natives_internal`,
src/downloaders/mod.rs:323-369) — the control flow that decides the fate
of the run-scoped temporary directory.  After spawning the worker units
the function drains them with `while let Some(res) = tasks.next().await
{ res??; }` and only then runs
`tokio::fs::remove_dir_all(temp_dir).await?`.
-/

deriving instance DecidableEq for Except

/-- The drain loop `while let Some(res) = tasks.next().await { res??; }`:
return at the first unit error (units modelled as completed, i.e. no
`JoinError`), `Ok(())` when every unit succeeded. -/
def drainTasks : List (Except ProtonError Unit) → Except ProtonError Unit
  | [] => .ok ()
  | .ok _ :: rest => drainTasks rest
  | .error e :: _ => .error e

/-- Outcome of the natives phase relevant to cleanup: the value returned
and whether `remove_dir_all(temp_dir)` was executed. -/
structure NativesOutcome where
  result : Except ProtonError Unit
  tempDirRemoved : Bool
  deriving DecidableEq, Repr

/-- Model of the tail of `download_natives_internal`
(src/downloaders/mod.rs:363-368) as a function of the unit results, in
the order the drain loop observes them: `res??` makes the first failing
unit return from the function before `remove_dir_all(temp_dir)` runs;
only when every unit succeeded is the temporary directory removed
(removal itself modelled as succeeding). -/
def download_natives_internal
    (unitResults : List (Except ProtonError Unit)) : NativesOutcome :=
  match drainTasks unitResults with
  | .error e => ⟨.error e, false⟩
  | .ok _ => ⟨.ok (), true⟩

/-!
Monitored worker unit (`create_monitored_task!`,
src/downloaders/mod.rs:146-208).
-/

/-- One progress event as sent on the channel: the incremented shared
counter value and the phase total (`DownloadProgress { current, total, .. }`,
src/downloaders/mod.rs:195-200). -/
structure ProgressEvent where
  current : Nat
  total : Nat
  deriving DecidableEq, Repr

/-- What a worker unit produces: the shared completed-counter value after
the unit, the progress events it sent, and the value the unit returns. -/
structure TaskOutcome where
  completed : Nat
  events : List ProgressEvent
  result : Except ProtonError Unit
  deriving DecidableEq, Repr

/-- Model of the body of `create_monitored_task!`
(src/downloaders/mod.rs:172-206) after the permit is acquired, as a
function of the `download_file` result, the post-processing result
(`$post_process?` — an early return on error), the counter value before
`fetch_add`, whether a progress sender is present, and the phase total.
Faithful order: the download result is STORED, post-processing runs (its
error returns early, skipping counter and event), then the counter is
incremented, one event carrying the incremented count is sent when a
sender exists, and finally the stored download result is returned. -/
def monitored_task (downloadResult postProcess : Except ProtonError Unit)
    (completedBefore : Nat) (txPresent : Bool) (total : Nat) :
    TaskOutcome :=
  match postProcess with
  | .error e => ⟨completedBefore, [], .error e⟩
  | .ok _ =>
    let count := completedBefore + 1
    let events := if txPresent then [⟨count, total⟩] else []
    ⟨count, events, downloadResult⟩

/-!
Theorems.
-/

/-- Helper: the attempt loop places a file at the destination exactly when
it returns success, and then only a file whose digest matches
`expected`; any failure leaves the (initially empty) destination empty. -/
theorem downloadFrom_destSpec (h : List Nat → String) (expected : String)
    (outcomes : Nat → AttemptOutcome) :
    ∀ (fuel i : Nat) (fs : FS), fs.dest = none →
      (((downloadFrom h expected outcomes i fuel fs).1 = .ok ()) ↔
        ∃ c, (downloadFrom h expected outcomes i fuel fs).2.1.dest = some c ∧
          h c = expected)
      ∧ ((downloadFrom h expected outcomes i fuel fs).1 ≠ .ok () →
        (downloadFrom h expected outcomes i fuel fs).2.1.dest = none) := by
  intro fuel
  induction fuel with
  | zero =>
    intro i fs hdest
    simp [downloadFrom, hdest]
  | succ fuel ih =>
    intro i fs hdest
    cases houtcome : outcomes i with
    | reqErr => simp [downloadFrom, houtcome, hdest]
    | bodyErr chunks => simp [downloadFrom, houtcome, hdest]
    | body chunks =>
      by_cases hhash : h chunks.flatten = expected
      · simp [downloadFrom, houtcome, hhash]
      · have hrec := ih (i + 1) { fs with temp := none } hdest
        simp only [downloadFrom, houtcome, if_neg hhash]
        exact hrec

/-- C1. Hash-gate invariant: starting from an empty destination,
`download_file` returns success iff it promoted a file to the destination
path, and any file so promoted has digest equal to `expected_hash`
(case-sensitively); on every failure the destination stays empty, so no
mismatching content is ever placed there. -/
theorem download_file_hash_gate (h : List Nat → String) (expected : String)
    (outcomes : Nat → AttemptOutcome) (fs : FS) (hdest : fs.dest = none) :
    (((download_file h expected outcomes fs).1 = .ok ()) ↔
      ∃ c, (download_file h expected outcomes fs).2.1.dest = some c ∧
        h c = expected)
    ∧ ((download_file h expected outcomes fs).1 ≠ .ok () →
      (download_file h expected outcomes fs).2.1.dest = none) :=
  downloadFrom_destSpec h expected outcomes MAX_DOWNLOAD_ATTEMPTS 0 fs hdest

/-- Witness for the hash-gate theorem at a concrete matching download. -/
theorem download_file_hash_gate_witness :
    (((download_file (fun _ => "aa") "aa" (fun _ => .body [[7]])
        ⟨none, none⟩).1 = .ok ()) ↔
      ∃ c, (download_file (fun _ => "aa") "aa" (fun _ => .body [[7]])
        ⟨none, none⟩).2.1.dest = some c ∧ (fun _ => "aa") c = "aa")
    ∧ ((download_file (fun _ => "aa") "aa" (fun _ => .body [[7]])
        ⟨none, none⟩).1 ≠ .ok () →
      (download_file (fun _ => "aa") "aa" (fun _ => .body [[7]])
        ⟨none, none⟩).2.1.dest = none) :=
  download_file_hash_gate (fun _ => "aa") "aa" (fun _ => .body [[7]])
    ⟨none, none⟩ rfl

/-- Helper: from a mismatch-body test, recover the body and its failed
comparison. -/
theorem isMismatchBody_elim (h : List Nat → String) (expected : String)
    (o : AttemptOutcome) (ho : isMismatchBody h expected o = true) :
    ∃ chunks, o = .body chunks ∧ h chunks.flatten ≠ expected := by
  cases o with
  | reqErr => simp [isMismatchBody] at ho
  | bodyErr chunks => simp [isMismatchBody] at ho
  | body chunks =>
    refine ⟨chunks, rfl, ?_⟩
    simpa [isMismatchBody] using ho

/-- Helper: when every attempt the loop can see yields a full body with a
mismatching digest, the loop issues exactly `fuel` requests and ends in
`HashMismatch`. -/
theorem downloadFrom_all_mismatch (h : List Nat → String) (expected : String)
    (outcomes : Nat → AttemptOutcome) :
    ∀ (fuel i : Nat) (fs : FS),
      (∀ j, j < fuel → isMismatchBody h expected (outcomes (i + j)) = true) →
      (downloadFrom h expected outcomes i fuel fs).1 = .error .hashMismatch ∧
      (downloadFrom h expected outcomes i fuel fs).2.2 = fuel := by
  intro fuel
  induction fuel with
  | zero => intro i fs _; simp [downloadFrom]
  | succ fuel ih =>
    intro i fs hall
    obtain ⟨chunks, hout, hne⟩ :=
      isMismatchBody_elim h expected (outcomes i)
        (by simpa using hall 0 (Nat.succ_pos fuel))
    have hrec := ih (i + 1) { fs with temp := none } (fun j hj => by
      have := hall (j + 1) (by omega)
      simpa [Nat.add_assoc, Nat.add_comm 1 j] using this)
    simp only [downloadFrom, hout, if_neg hne]
    exact ⟨hrec.1, by simp [hrec.2]⟩

/-- C3. Retry bound: when every attempt returns a full body whose digest
mismatches, `download_file` issues exactly `MAX_DOWNLOAD_ATTEMPTS` (= 3)
request-and-verify cycles and returns `HashMismatch`; when the request
itself fails on the first attempt, it returns `RequestError` after a
single request — zero retries. -/
theorem download_file_retry_bound :
    (∀ (h : List Nat → String) (expected : String)
        (outcomes : Nat → AttemptOutcome) (fs : FS),
      (∀ j, j < MAX_DOWNLOAD_ATTEMPTS →
          isMismatchBody h expected (outcomes j) = true) →
      (download_file h expected outcomes fs).1 = .error .hashMismatch ∧
      (download_file h expected outcomes fs).2.2 = MAX_DOWNLOAD_ATTEMPTS)
    ∧ (∀ (h : List Nat → String) (expected : String)
        (outcomes : Nat → AttemptOutcome) (fs : FS),
      outcomes 0 = .reqErr →
      (download_file h expected outcomes fs).1 = .error .requestError ∧
      (download_file h expected outcomes fs).2.2 = 1) := by
  constructor
  · intro h expected outcomes fs hall
    exact downloadFrom_all_mismatch h expected outcomes
      MAX_DOWNLOAD_ATTEMPTS 0 fs (fun j hj => by simpa using hall j hj)
  · intro h expected outcomes fs h0
    simp [download_file, MAX_DOWNLOAD_ATTEMPTS, downloadFrom, h0]

/-- Witness for the retry bound at concrete environments: an
always-mismatching body, and a first-attempt request failure. -/
theorem download_file_retry_bound_witness :
    ((download_file (fun _ => "aa") "bb" (fun _ => .body [[0]])
        ⟨none, none⟩).1 = .error .hashMismatch ∧
      (download_file (fun _ => "aa") "bb" (fun _ => .body [[0]])
        ⟨none, none⟩).2.2 = MAX_DOWNLOAD_ATTEMPTS)
    ∧ ((download_file (fun _ => "aa") "bb" (fun _ => .reqErr)
        ⟨none, none⟩).1 = .error .requestError ∧
      (download_file (fun _ => "aa") "bb" (fun _ => .reqErr)
        ⟨none, none⟩).2.2 = 1) :=
  ⟨download_file_retry_bound.1 (fun _ => "aa") "bb" (fun _ => .body [[0]])
      ⟨none, none⟩ (by decide),
    download_file_retry_bound.2 (fun _ => "aa") "bb" (fun _ => .reqErr)
      ⟨none, none⟩ rfl⟩

/-- C8 counterexample. A transport error in the middle of the body stream
makes `download_file` return an error while the partially written file is
still present at the temporary path: the claim that every erroring call
leaves nothing at the temporary path is false. -/
theorem download_file_temp_cleanup_counterexample :
    (download_file (fun _ => "aa") "bb" (fun _ => .bodyErr [[1, 2, 3]])
      ⟨none, none⟩).1 = .error .requestError
    ∧ (download_file (fun _ => "aa") "bb" (fun _ => .bodyErr [[1, 2, 3]])
      ⟨none, none⟩).2.1.temp = some [1, 2, 3] := by
  constructor <;> rfl

/-- Helper: whenever the attempt loop ends in `HashMismatch`, the
temporary file has been removed (the final mismatch deletes it before the
loop exits); the side condition covers the zero-fuel base case, which is
only reached with the temp file already removed. -/
theorem downloadFrom_hashMismatch_temp (h : List Nat → String)
    (expected : String) (outcomes : Nat → AttemptOutcome) :
    ∀ (fuel i : Nat) (fs : FS), (1 ≤ fuel ∨ fs.temp = none) →
      (downloadFrom h expected outcomes i fuel fs).1 =
        .error .hashMismatch →
      (downloadFrom h expected outcomes i fuel fs).2.1.temp = none := by
  intro fuel
  induction fuel with
  | zero =>
    intro i fs hside hres
    rcases hside with hside | hside
    · omega
    · simpa [downloadFrom] using hside
  | succ fuel ih =>
    intro i fs _ hres
    cases houtcome : outcomes i with
    | reqErr => simp [downloadFrom, houtcome] at hres
    | bodyErr chunks => simp [downloadFrom, houtcome] at hres
    | body chunks =>
      by_cases hhash : h chunks.flatten = expected
      · simp [downloadFrom, houtcome, hhash] at hres
      · simp only [downloadFrom, houtcome, if_neg hhash] at hres ⊢
        exact ih (i + 1) { fs with temp := none } (Or.inr rfl) hres

/-- C8 amended. On the hash-mismatch failure path the temporary file is
always removed before `download_file` returns `HashMismatch`, and a
first-attempt request failure leaves the temporary path untouched; it is
only the mid-stream transport (and filesystem) error paths that can leave
a partial file at the temporary path. -/
theorem download_file_temp_cleanup_amended :
    (∀ (h : List Nat → String) (expected : String)
        (outcomes : Nat → AttemptOutcome) (fs : FS),
      (download_file h expected outcomes fs).1 = .error .hashMismatch →
      (download_file h expected outcomes fs).2.1.temp = none)
    ∧ (∀ (h : List Nat → String) (expected : String)
        (outcomes : Nat → AttemptOutcome) (fs : FS),
      outcomes 0 = .reqErr →
      (download_file h expected outcomes fs).2.1.temp = fs.temp) := by
  constructor
  · intro h expected outcomes fs hres
    exact downloadFrom_hashMismatch_temp h expected outcomes
      MAX_DOWNLOAD_ATTEMPTS 0 fs (Or.inl (by decide)) hres
  · intro h expected outcomes fs h0
    simp [download_file, MAX_DOWNLOAD_ATTEMPTS, downloadFrom, h0]

/-- Witness for the amended temp-cleanup theorem at concrete inputs. -/
theorem download_file_temp_cleanup_amended_witness :
    (download_file (fun _ => "aa") "bb" (fun _ => .body [[0]])
      ⟨none, none⟩).2.1.temp = none
    ∧ (download_file (fun _ => "aa") "bb" (fun _ => .reqErr)
      ⟨some [5], none⟩).2.1.temp = some [5] :=
  ⟨download_file_temp_cleanup_amended.1 (fun _ => "aa") "bb"
      (fun _ => .body [[0]]) ⟨none, none⟩ (by decide),
    download_file_temp_cleanup_amended.2 (fun _ => "aa") "bb"
      (fun _ => .reqErr) ⟨some [5], none⟩ rfl⟩

/-- C2. Path traversal is NOT hit by any rejection or neutralisation in
`extract_native`: an archive entry named with a `..` component is written
to `destino.join(nombre)` verbatim, and the resulting path resolves
outside the destination directory. -/
theorem extract_native_traversal_escape :
    extract_native ["natives"] [⟨"../evil.so", [1], true⟩] =
      ([(["natives", "..", "evil.so"], [1])], none)
    ∧ insideDir ["natives"] ["natives", "..", "evil.so"] = false := by
  constructor <;> decide

/-- C4. Extraction correctness: on an archive whose entries all read
successfully, `extract_native` succeeds and performs exactly one write
`destino/entry_name` (parents created, overwriting) for each entry whose
name is not under `META-INF/`, in stored order, and no write for the
`META-INF/` entries. -/
theorem extract_native_correct (destino : List String)
    (entries : List ZipEntry) (hread : ∀ e ∈ entries, e.readOk = true) :
    extract_native destino entries =
      ((entries.filter
          (fun e => !(strStartsWith e.filename "META-INF/"))).map
        (fun e => (joinPath destino e.filename, e.payload)), none) := by
  induction entries with
  | nil => simp [extract_native]
  | cons e rest ih =>
    have he : e.readOk = true := hread e (by simp)
    have hrest := ih (fun x hx => hread x (by simp [hx]))
    by_cases hskip : strStartsWith e.filename "META-INF/"
    · simp [extract_native, he, hskip, hrest, List.filter_cons]
    · simp [extract_native, he, hskip, hrest, List.filter_cons]

/-- Witness for extraction correctness on the archive
`{"META-INF/x", "a/b.so", "c.dll"}` from the spec's testable property. -/
theorem extract_native_correct_witness :
    extract_native ["dest"]
      [⟨"META-INF/x", [9], true⟩, ⟨"a/b.so", [1], true⟩,
        ⟨"c.dll", [2], true⟩] =
      ([(["dest", "a", "b.so"], [1]), (["dest", "c.dll"], [2])], none) :=
  Eq.trans
    (extract_native_correct ["dest"]
      [⟨"META-INF/x", [9], true⟩, ⟨"a/b.so", [1], true⟩,
        ⟨"c.dll", [2], true⟩] (by decide))
    (by decide)

/-- C5. Adjustment rule: evaluating a non-empty latency window takes the
integer-millisecond mean of the window; a mean above the threshold
shrinks `current_concurrent` to `max (current * 8 / 10) min_limit`, a
mean below half the threshold grows it to
`min (current * 11 / 10) max_limit`, and otherwise it is unchanged. -/
theorem adjust_concurrency_rule (c : AdaptiveConfig)
    (hne : c.performance_samples ≠ []) :
    (c.performance_samples.sum / c.performance_samples.length >
        c.performance_threshold_ms →
      (adjust_concurrency c).current_concurrent =
        max (c.current_concurrent * 8 / 10) c.min_concurrent)
    ∧ (c.performance_samples.sum / c.performance_samples.length <
        c.performance_threshold_ms / 2 →
      (adjust_concurrency c).current_concurrent =
        min (c.current_concurrent * 11 / 10) c.max_concurrent)
    ∧ (¬ c.performance_samples.sum / c.performance_samples.length >
          c.performance_threshold_ms →
      ¬ c.performance_samples.sum / c.performance_samples.length <
          c.performance_threshold_ms / 2 →
      (adjust_concurrency c).current_concurrent =
        c.current_concurrent) := by
  have hempty : c.performance_samples.isEmpty = false := by
    simpa [List.isEmpty_iff] using hne
  refine ⟨fun hhi => ?_, fun hlo => ?_, fun hnh hnl => ?_⟩
  · simp [adjust_concurrency, hempty, hhi]
  · have hnh : ¬ c.performance_samples.sum / c.performance_samples.length >
        c.performance_threshold_ms := by
      have := Nat.div_le_self c.performance_threshold_ms 2
      omega
    simp [adjust_concurrency, hempty, hnh, hlo]
  · simp [adjust_concurrency, hempty, hnh, hnl]

/-- Witness for the adjustment rule: a window with mean 2000 ms against a
1000 ms threshold shrinks `current_concurrent` from 32 to 25. -/
theorem adjust_concurrency_rule_witness :
    (adjust_concurrency
      { max_concurrent := 64, current_concurrent := 32, min_concurrent := 4,
        performance_samples := [1500, 2500], sample_size := 8,
        performance_threshold_ms := 1000,
        adjustment_interval_secs := 5 }).current_concurrent =
      max (32 * 8 / 10) 4 :=
  (adjust_concurrency_rule
    { max_concurrent := 64, current_concurrent := 32, min_concurrent := 4,
      performance_samples := [1500, 2500], sample_size := 8,
      performance_threshold_ms := 1000,
      adjustment_interval_secs := 5 } (by decide)).1 (by decide)

/-- C6. Bounds invariant: all three constructors establish
`min_concurrent ≤ current_concurrent ≤ max_concurrent` (for every host
observation), and `record_and_adjust` preserves it for every recorded
duration and timer state, so `current_concurrent` never leaves
`[min_concurrent, max_concurrent]`. -/
theorem adaptive_bounds_invariant :
    (∀ cpu_cores memory_based : Nat,
      AdaptiveInv (AdaptiveConfig.new cpu_cores memory_based))
    ∧ (∀ cpu_cores memory_based : Nat,
      AdaptiveInv (AdaptiveConfig.conservative cpu_cores memory_based))
    ∧ (∀ cpu_cores memory_based : Nat,
      AdaptiveInv (AdaptiveConfig.aggressive cpu_cores memory_based))
    ∧ (∀ (c : AdaptiveConfig) (duration_ms : Nat)
        (intervalElapsed : Bool), AdaptiveInv c →
      AdaptiveInv (record_and_adjust c duration_ms intervalElapsed)) := by
  refine ⟨fun cpu memB => ?_, fun cpu memB => ?_, fun cpu memB => ?_,
    fun c d b hInv => ?_⟩
  · simp only [AdaptiveConfig.new, AdaptiveInv,
      calculate_optimal_downloads]
    omega
  · simp only [AdaptiveConfig.conservative, AdaptiveConfig.new,
      AdaptiveInv, calculate_optimal_downloads]
    omega
  · simp only [AdaptiveConfig.aggressive, AdaptiveConfig.new,
      AdaptiveInv, calculate_optimal_downloads]
    omega
  · obtain ⟨h1, h2⟩ := hInv
    simp only [record_and_adjust, adjust_concurrency, AdaptiveInv] at *
    split_ifs <;> simp_all <;> omega

/-- Witness for the bounds invariant: a concrete constructor state and a
concrete preserved adjustment step. -/
theorem adaptive_bounds_invariant_witness :
    AdaptiveInv (AdaptiveConfig.new 4 100)
    ∧ AdaptiveInv (record_and_adjust
      { max_concurrent := 64, current_concurrent := 32, min_concurrent := 4,
        performance_samples := [100, 100, 100], sample_size := 8,
        performance_threshold_ms := 1000,
        adjustment_interval_secs := 5 } 100 true) :=
  ⟨adaptive_bounds_invariant.1 4 100,
    adaptive_bounds_invariant.2.2.2
      { max_concurrent := 64, current_concurrent := 32, min_concurrent := 4,
        performance_samples := [100, 100, 100], sample_size := 8,
        performance_threshold_ms := 1000,
        adjustment_interval_secs := 5 } 100 true (by decide)⟩

/-- C7 counterexample. One native unit finishing with an error makes
`download_natives_internal` return that error WITHOUT removing the
run-scoped temporary directory: cleanup does not happen on the error
path, refuting removal "regardless of whether individual units succeeded
or failed". -/
theorem natives_temp_cleanup_counterexample :
    download_natives_internal [.error .hashMismatch] =
      ⟨.error .hashMismatch, false⟩ := rfl

/-- C7 amended. The natives phase returns the first unit error (or
success when every unit succeeded), and the run-scoped temporary
directory is removed exactly when every native unit finished
successfully; a failing unit returns before the removal, leaving the
directory in place. -/
theorem natives_temp_cleanup_amended
    (unitResults : List (Except ProtonError Unit)) :
    (download_natives_internal unitResults).result = drainTasks unitResults
    ∧ ((download_natives_internal unitResults).tempDirRemoved = true ↔
      drainTasks unitResults = .ok ()) := by
  cases hd : drainTasks unitResults <;>
    simp [download_natives_internal, hd]

/-- C9 counterexample. The temporary path is built with
`with_extension("tmp")`, which REPLACES the extension rather than
appending a suffix: the two distinct destinations `a/lib.jar` and
`a/lib.zip` share the temporary path `a/lib.tmp`, and the destination
`a/file.tmp` coincides with its own temporary path. -/
theorem temp_path_shape_counterexample :
    temp_file_path ⟨["a"], "lib.jar"⟩ = temp_file_path ⟨["a"], "lib.zip"⟩
    ∧ temp_file_path ⟨["a"], "file.tmp"⟩ = ⟨["a"], "file.tmp"⟩ := by
  constructor <;> rfl

/-- C9 amended. The temporary path keeps the destination's directory and
replaces the file name's extension by `tmp` (the stem is kept and `.tmp`
appended to it); only for a destination file name with no extension is
the temporary path the destination with the suffix `.tmp` appended. -/
theorem temp_path_shape_amended (dir : List String) (f : String) :
    temp_file_path ⟨dir, f⟩ = ⟨dir, rustFileStem f ++ ".tmp"⟩
    ∧ (splitAtLastDot f.toList = none →
      temp_file_path ⟨dir, f⟩ = ⟨dir, f ++ ".tmp"⟩) := by
  constructor
  · show RPath.mk dir (rustFileStem f ++ "." ++ "tmp") = _
    rw [String.append_assoc]
    rfl
  · intro hno
    show RPath.mk dir (rustFileStem f ++ "." ++ "tmp") = _
    rw [String.append_assoc, rustFileStem, hno]
    rfl

/-- Witness for the amended temporary-path shape at a concrete
extensionless destination. -/
theorem temp_path_shape_amended_witness :
    temp_file_path ⟨[], "clientjar"⟩ = ⟨[], "clientjar" ++ ".tmp"⟩ :=
  (temp_path_shape_amended [] "clientjar").2 rfl

/-- C10. Progress does not imply success: for a worker unit whose
post-processing is trivially `Ok` (client, library and asset categories),
a failed `download_file` still increments the shared completed counter
and still emits exactly one progress event carrying the incremented
count, and only then is the download error returned. -/
theorem progress_event_on_failed_download (e : ProtonError)
    (completedBefore total : Nat) :
    monitored_task (.error e) (.ok ()) completedBefore true total =
      ⟨completedBefore + 1, [⟨completedBefore + 1, total⟩], .error e⟩ :=
  rfl

end Proton
